import Mathlib

/-!
Shallow embedding of `src/import_chart_of_accounts.py`, a chart-of-accounts
CSV importer working against a relational `accounts` table.

The database is modelled as a list of `Account` rows; SQL statements become
list operations (DELETE = filter, SELECT by code+company = find?, INSERT =
append).  The `RETURNING id` of a SERIAL column is modelled by threading a
`nextId` counter.  Python dictionaries (`parent_map`) become association
lists with most-recent binding first.  Python string truthiness
(`if parent_code`, `2 if parent_id else 1`) is modelled explicitly.

A second, fuel-instrumented interpreter (`import_run`) models the
transactional behaviour: every SQL statement consumes one unit of fuel and a
database error is modelled as fuel running out at that statement; `commit`
publishes the pending state, and an error makes the run return the committed
state (the effect of `conn.rollback()`) together with exit code 1.
-/

/-- One row of the `accounts` table (columns used by the script). -/
structure Account where
  id : Nat
  code : String
  name : String
  account_type : String
  account_class : Nat
  parent_id : Option Nat
  level : Nat
  is_vat_applicable : Bool
  vat_direction : String
  is_active : Bool
  is_analytical : Bool
  company_id : Nat
deriving Repr, DecidableEq

abbrev DB := List Account

/-- One CSV row as produced by `csv.DictReader` (the columns the script reads;
the Bulgarian header names are transliterated to field names). -/
structure Row where
  tipSmetka : String        -- 'Тип сметка'
  kod : String              -- 'Код'
  imeNaSmetka : String      -- 'Име на сметка'
  tip : String              -- 'Тип'
  sintetichnaSmetka : String -- 'Синтетична сметка' (empty string = absent)
  ddsPrilozhimost : String  -- 'ДДС приложимост'
  ddsPosoka : String        -- 'ДДС посока'
deriving Repr, DecidableEq

/-- The three seed codes excluded from the initial DELETE:
`code NOT IN ('101', '201', '301')`. -/
def seedCodes : List String := ["101", "201", "301"]

/-- `DELETE FROM accounts WHERE company_id = %s AND code NOT IN ('101','201','301')`:
keep exactly the rows the DELETE does not match. -/
def purge (db : DB) (company_id : Nat) : DB :=
  db.filter (fun a => !(a.company_id == company_id && !(seedCodes.contains a.code)))

/-- `SELECT id FROM accounts WHERE code = %s AND company_id = %s` followed by
`fetchone()`: the id of some matching row, or `none`. -/
def lookupAccount (db : DB) (code : String) (company_id : Nat) : Option Nat :=
  (db.find? (fun a => a.code == code && a.company_id == company_id)).map (fun a => a.id)

/-- `parse_account_type`: identity on the five known values, `'ASSET'` otherwise. -/
def parse_account_type (type_str : String) : String :=
  if type_str = "ASSET" ∨ type_str = "LIABILITY" ∨ type_str = "EQUITY" ∨
     type_str = "REVENUE" ∨ type_str = "EXPENSE" then type_str else "ASSET"

/-- `parse_vat_direction`: identity on the four known values, `'NONE'` otherwise. -/
def parse_vat_direction (direction_str : String) : String :=
  if direction_str = "NONE" ∨ direction_str = "INPUT" ∨ direction_str = "OUTPUT" ∨
     direction_str = "BOTH" then direction_str else "NONE"

/-- Python's `str.strip()`: remove whitespace from both ends.  (Defined over
the character list so that it reduces in the kernel.) -/
def pyStrip (s : String) : String :=
  ⟨((s.data.dropWhile Char.isWhitespace).reverse.dropWhile Char.isWhitespace).reverse⟩

/-- `get_account_class`: `int(code[0])` when the first character is a digit,
else (or for an empty code) 1. -/
def get_account_class (code : String) : Nat :=
  if code = "" then 1
  else
    match code.data with
    | [] => 1
    | first_digit :: _ => if first_digit.isDigit then first_digit.toNat - '0'.toNat else 1

/-- Python truthiness of an optional integer: `None` and `0` are falsy. -/
def pyTruthyOptNat : Option Nat → Bool
  | none => false
  | some n => n != 0

/-- The account record built by the synthetic-pass INSERT
(`parent_id = NULL, level = 1, is_active = true, is_analytical = false`). -/
def mkSynAccount (company_id newId : Nat) (r : Row) : Account :=
  { id := newId
    code := (pyStrip r.kod)
    name := (pyStrip r.imeNaSmetka)
    account_type := parse_account_type (if r.tip = "" then "ASSET" else (pyStrip r.tip))
    account_class := get_account_class (pyStrip r.kod)
    parent_id := none
    level := 1
    is_vat_applicable := (pyStrip r.ddsPrilozhimost) == "ДА"
    vat_direction := parse_vat_direction (if r.ddsPosoka = "" then "NONE" else (pyStrip r.ddsPosoka))
    is_active := true
    is_analytical := false
    company_id := company_id }

/-- `parent_code = account['Синтетична сметка'].strip() if account['Синтетична сметка'] else None`
followed by `parent_id = parent_map.get(parent_code) if parent_code else None`. -/
def resolveParent (parent_map : List (String × Nat)) (r : Row) : Option Nat :=
  match (if r.sintetichnaSmetka = "" then none else some (pyStrip r.sintetichnaSmetka)) with
  | none => none
  | some parent_code => if parent_code = "" then none else parent_map.lookup parent_code

/-- The account record built by the analytical-pass INSERT
(`level = 2 if parent_id else 1`, `is_active = true, is_analytical = true`). -/
def mkAnaAccount (company_id newId : Nat) (parent_id : Option Nat) (r : Row) : Account :=
  { id := newId
    code := (pyStrip r.kod)
    name := (pyStrip r.imeNaSmetka)
    account_type := parse_account_type (if r.tip = "" then "ASSET" else (pyStrip r.tip))
    account_class := get_account_class (pyStrip r.kod)
    parent_id := parent_id
    level := if pyTruthyOptNat parent_id then 2 else 1
    is_vat_applicable := (pyStrip r.ddsPrilozhimost) == "ДА"
    vat_direction := parse_vat_direction (if r.ddsPosoka = "" then "NONE" else (pyStrip r.ddsPosoka))
    is_active := true
    is_analytical := true
    company_id := company_id }

/-- In-transaction state of the happy-path import: the pending table contents,
the `parent_map` dictionary, and the next SERIAL id. -/
structure ImportState where
  db : DB
  parent_map : List (String × Nat)
  nextId : Nat
deriving Repr, DecidableEq

/-- Body of the synthetic-pass loop for one row: look up by code+company;
if found record the existing id in `parent_map`, else insert and record the
new id. -/
def processSynthetic (company_id : Nat) (st : ImportState) (r : Row) : ImportState :=
  let code := (pyStrip r.kod)
  match lookupAccount st.db code company_id with
  | some existing => { st with parent_map := (code, existing) :: st.parent_map }
  | none =>
      { db := st.db ++ [mkSynAccount company_id st.nextId r]
        parent_map := (code, st.nextId) :: st.parent_map
        nextId := st.nextId + 1 }

/-- Body of the analytical-pass loop for one row: resolve the parent, look up
by code+company; if found skip (`continue`), else insert. -/
def processAnalytical (company_id : Nat) (st : ImportState) (r : Row) : ImportState :=
  let code := (pyStrip r.kod)
  let parent_id := resolveParent st.parent_map r
  match lookupAccount st.db code company_id with
  | some _ => st
  | none =>
      { st with
        db := st.db ++ [mkAnaAccount company_id st.nextId parent_id r]
        nextId := st.nextId + 1 }

/-- `[acc for acc in all_accounts if acc['Тип сметка'] == 'СИНТЕТИЧНА']` -/
def synRows (rows : List Row) : List Row :=
  rows.filter (fun r => r.tipSmetka == "СИНТЕТИЧНА")

/-- `[acc for acc in all_accounts if acc['Тип сметка'] == 'АНАЛИТИЧНА']` -/
def anaRows (rows : List Row) : List Row :=
  rows.filter (fun r => r.tipSmetka == "АНАЛИТИЧНА")

/-- State right after the initial DELETE: purged table, empty map, first
fresh SERIAL id. -/
def initState (db : DB) (company_id startId : Nat) : ImportState :=
  { db := purge db company_id, parent_map := [], nextId := startId }

/-- State after the synthetic pass. -/
def synPass (db : DB) (rows : List Row) (company_id startId : Nat) : ImportState :=
  (synRows rows).foldl (processSynthetic company_id) (initState db company_id startId)

/-- `import_accounts` (happy path): purge, synthetic pass, analytical pass.
`startId` is the next value of the SERIAL id sequence. -/
def import_accounts (db : DB) (rows : List Row) (company_id startId : Nat) : ImportState :=
  (anaRows rows).foldl (processAnalytical company_id) (synPass db rows company_id startId)

/-- State reached while the analytical pass has processed the prefix `A1` of
the analytical rows. -/
def midAnaState (db : DB) (rows : List Row) (company_id startId : Nat) (A1 : List Row) :
    ImportState :=
  A1.foldl (processAnalytical company_id) (synPass db rows company_id startId)

/-- State reached while the synthetic pass has processed the prefix `S1` of
the synthetic rows. -/
def midSynState (db : DB) (company_id startId : Nat) (S1 : List Row) : ImportState :=
  S1.foldl (processSynthetic company_id) (initState db company_id startId)

/-- Rows of the table belonging to one company. -/
def companyRows (db : DB) (company_id : Nat) : DB :=
  db.filter (fun a => a.company_id == company_id)

/-- `SELECT COUNT(*) FROM accounts WHERE company_id = %s` -/
def countCompany (db : DB) (company_id : Nat) : Nat :=
  (companyRows db company_id).length

/-- Codes of the rows of one company, in table order. -/
def companyCodes (db : DB) (company_id : Nat) : List String :=
  (companyRows db company_id).map (fun a => a.code)

/-!
Fuel-instrumented interpreter of the same run, modelling the psycopg2
transaction.  Each SQL statement consumes one unit of fuel; a database error
is modelled as the fuel reaching zero at a statement, which sets `failed`.
`committed` is the state the database server has durably; it changes only at
the COMMIT statement.  On failure the script calls `conn.rollback()`, which
discards `pending`, so the run's outcome is `committed`, with exit code 1.
-/

/-- Transaction state of the fuel-instrumented run. -/
structure RunState where
  committed : DB
  pending : DB
  parent_map : List (String × Nat)
  nextId : Nat
  fuel : Nat
  failed : Bool
deriving Repr, DecidableEq

/-- The initial DELETE statement. -/
def txDelete (company_id : Nat) (s : RunState) : RunState :=
  if s.failed then s
  else if s.fuel = 0 then { s with failed := true }
  else { s with fuel := s.fuel - 1, pending := purge s.pending company_id }

/-- Synthetic-pass loop body: a SELECT statement, then (when no row was
found) an INSERT statement. -/
def txSynStep (company_id : Nat) (s : RunState) (r : Row) : RunState :=
  if s.failed then s else
  let code := (pyStrip r.kod)
  if s.fuel = 0 then { s with failed := true } else
  let s1 : RunState := { s with fuel := s.fuel - 1 }
  match lookupAccount s1.pending code company_id with
  | some existing => { s1 with parent_map := (code, existing) :: s1.parent_map }
  | none =>
      if s1.fuel = 0 then { s1 with failed := true }
      else
        { s1 with
          fuel := s1.fuel - 1
          pending := s1.pending ++ [mkSynAccount company_id s1.nextId r]
          parent_map := (code, s1.nextId) :: s1.parent_map
          nextId := s1.nextId + 1 }

/-- Analytical-pass loop body: a SELECT statement, then (when no row was
found) an INSERT statement. -/
def txAnaStep (company_id : Nat) (s : RunState) (r : Row) : RunState :=
  if s.failed then s else
  let code := (pyStrip r.kod)
  let parent_id := resolveParent s.parent_map r
  if s.fuel = 0 then { s with failed := true } else
  let s1 : RunState := { s with fuel := s.fuel - 1 }
  match lookupAccount s1.pending code company_id with
  | some _ => s1
  | none =>
      if s1.fuel = 0 then { s1 with failed := true }
      else
        { s1 with
          fuel := s1.fuel - 1
          pending := s1.pending ++ [mkAnaAccount company_id s1.nextId parent_id r]
          nextId := s1.nextId + 1 }

/-- `conn.commit()`: publish the pending state. -/
def txCommit (s : RunState) : RunState :=
  if s.failed then s
  else if s.fuel = 0 then { s with failed := true }
  else { s with fuel := s.fuel - 1, committed := s.pending }

/-- The final `SELECT COUNT(*)` statement, issued after the commit. -/
def txCount (s : RunState) : RunState :=
  if s.failed then s
  else if s.fuel = 0 then { s with failed := true }
  else { s with fuel := s.fuel - 1 }

/-- All transaction states of one run, chained in program order. -/
def runStates (db : DB) (rows : List Row) (company_id startId fuel : Nat) : RunState :=
  txCount (txCommit
    ((anaRows rows).foldl (txAnaStep company_id)
      ((synRows rows).foldl (txSynStep company_id)
        (txDelete company_id
          { committed := db, pending := db, parent_map := [], nextId := startId
            fuel := fuel, failed := false }))))

/-- Outcome of a run that may hit a database error: the durable database
contents after the `except psycopg2.Error` handler's `conn.rollback()`, and
the process exit code (`sys.exit(1)` on error, 0 otherwise). -/
def import_run (db : DB) (rows : List Row) (company_id startId fuel : Nat) : DB × Nat :=
  ((runStates db rows company_id startId fuel).committed,
   if (runStates db rows company_id startId fuel).failed then 1 else 0)

/-- A synthetic input row (the spec's example account 41). -/
def rowSyn41 : Row :=
  { tipSmetka := "СИНТЕТИЧНА", kod := "41", imeNaSmetka := "Доставчици"
    tip := "ASSET", sintetichnaSmetka := "", ddsPrilozhimost := "НЕ", ddsPosoka := "NONE" }

/-- An analytical input row whose parent code is the synthetic row 41. -/
def rowAna4111 : Row :=
  { tipSmetka := "АНАЛИТИЧНА", kod := "4111", imeNaSmetka := "Доставчици АБВ"
    tip := "ASSET", sintetichnaSmetka := "41", ddsPrilozhimost := "ДА", ddsPosoka := "INPUT" }

/-- An analytical input row with no declared parent. -/
def rowAna501 : Row :=
  { tipSmetka := "АНАЛИТИЧНА", kod := "501", imeNaSmetka := "Каса"
    tip := "ASSET", sintetichnaSmetka := "", ddsPrilozhimost := "НЕ", ddsPosoka := "NONE" }

/-- An input row whose record type is neither synthetic nor analytical. -/
def rowUnknown : Row :=
  { tipSmetka := "ДРУГА", kod := "77", imeNaSmetka := "X"
    tip := "ASSET", sintetichnaSmetka := "", ddsPrilozhimost := "НЕ", ddsPosoka := "NONE" }

/-- A pre-existing non-seed account of company 1. -/
def acct999 : Account :=
  { id := 5, code := "999", name := "Other", account_type := "ASSET", account_class := 9
    parent_id := none, level := 1, is_vat_applicable := false, vat_direction := "NONE"
    is_active := true, is_analytical := false, company_id := 1 }

/-- A pre-existing seed-coded account of company 1. -/
def acct101 : Account :=
  { id := 2, code := "101", name := "Cash", account_type := "ASSET", account_class := 1
    parent_id := none, level := 1, is_vat_applicable := false, vat_direction := "NONE"
    is_active := true, is_analytical := false, company_id := 1 }

/-- Insert a code into a list of codes unless it is already there (the
observable effect of one guarded INSERT on the company's code list). -/
def ins (E : List String) (c : String) : List String :=
  if c ∈ E then E else E ++ [c]

/-- Trimmed codes of the file's rows in processed order: all synthetic rows,
then all analytical rows. -/
def fileCodes (rows : List Row) : List String :=
  (synRows rows).map (fun r => (pyStrip r.kod)) ++ (anaRows rows).map (fun r => (pyStrip r.kod))

/-! ### Basic lemmas about lookups and company code lists -/

lemma mem_companyCodes {db : DB} {c : String} {cid : Nat} :
    c ∈ companyCodes db cid ↔ ∃ a, a ∈ db ∧ a.company_id = cid ∧ a.code = c := by
  simp only [companyCodes, companyRows, List.mem_map, List.mem_filter, beq_iff_eq]
  constructor
  · rintro ⟨a, ⟨ha, hc⟩, rfl⟩
    exact ⟨a, ha, hc, rfl⟩
  · rintro ⟨a, ha, hc, rfl⟩
    exact ⟨a, ⟨ha, hc⟩, rfl⟩

lemma lookupAccount_eq_none {db : DB} {code : String} {cid : Nat} :
    lookupAccount db code cid = none ↔ code ∉ companyCodes db cid := by
  simp only [lookupAccount, Option.map_eq_none', List.find?_eq_none, Bool.and_eq_true,
    beq_iff_eq, not_and, mem_companyCodes]
  constructor
  · rintro h ⟨a, ha, hcid, hcode⟩
    exact h a ha hcode hcid
  · intro h a ha hcode hcid
    exact h ⟨a, ha, hcid, hcode⟩

lemma lookupAccount_eq_some {db : DB} {code : String} {cid : Nat} {i : Nat}
    (h : lookupAccount db code cid = some i) :
    ∃ a, a ∈ db ∧ a.code = code ∧ a.company_id = cid ∧ a.id = i := by
  simp only [lookupAccount, Option.map_eq_some'] at h
  obtain ⟨a, hfind, hid⟩ := h
  have hmem := List.mem_of_find?_eq_some hfind
  have hpred := List.find?_some hfind
  simp only [Bool.and_eq_true, beq_iff_eq] at hpred
  exact ⟨a, hmem, hpred.1, hpred.2, hid⟩

lemma companyCodes_append_one {db : DB} {a : Account} {cid : Nat} :
    companyCodes (db ++ [a]) cid =
      companyCodes db cid ++ (if a.company_id = cid then [a.code] else []) := by
  simp only [companyCodes, companyRows, List.filter_append, List.map_append]
  by_cases h : a.company_id = cid
  · have hb : (a.company_id == cid) = true := by simp [h]
    simp [List.filter, hb, h]
  · have hb : (a.company_id == cid) = false := by simp [h]
    simp [List.filter, hb, h]

/-- Generic invariant preservation along a left fold. -/
lemma foldl_inv {α β : Type} (P : β → Prop) (f : β → α → β)
    (h : ∀ b a, P b → P (f b a)) :
    ∀ (l : List α) (b : β), P b → P (l.foldl f b) := by
  intro l
  induction l with
  | nil => intro b hb; exact hb
  | cons x xs ih => intro b hb; exact ih (f b x) (h b x hb)

/-! ### The parent map and database membership along the passes -/

lemma parent_map_processAnalytical (cid : Nat) (st : ImportState) (r : Row) :
    (processAnalytical cid st r).parent_map = st.parent_map := by
  unfold processAnalytical
  cases h : lookupAccount st.db (pyStrip r.kod) cid <;> simp [h]

lemma parent_map_foldl_ana (cid : Nat) :
    ∀ (rs : List Row) (st : ImportState),
      ((rs.foldl (processAnalytical cid) st).parent_map) = st.parent_map := by
  intro rs
  induction rs with
  | nil => intro st; rfl
  | cons r rs ih =>
      intro st
      rw [List.foldl_cons, ih, parent_map_processAnalytical]

lemma mem_db_processSynthetic (cid : Nat) (st : ImportState) (r : Row) {a : Account}
    (ha : a ∈ st.db) : a ∈ (processSynthetic cid st r).db := by
  unfold processSynthetic
  cases h : lookupAccount st.db (pyStrip r.kod) cid
  · simp only [h]
    exact List.mem_append_left _ ha
  · simp only [h]
    exact ha

lemma mem_db_processAnalytical (cid : Nat) (st : ImportState) (r : Row) {a : Account}
    (ha : a ∈ st.db) : a ∈ (processAnalytical cid st r).db := by
  unfold processAnalytical
  cases h : lookupAccount st.db (pyStrip r.kod) cid
  · simp only [h]
    exact List.mem_append_left _ ha
  · simp only [h]
    exact ha

lemma mem_db_foldl_syn (cid : Nat) (rs : List Row) (st : ImportState) {a : Account}
    (ha : a ∈ st.db) : a ∈ ((rs.foldl (processSynthetic cid) st).db) :=
  foldl_inv (fun st' => a ∈ st'.db) (processSynthetic cid)
    (fun st' r h => mem_db_processSynthetic cid st' r h) rs st ha

lemma mem_db_foldl_ana (cid : Nat) (rs : List Row) (st : ImportState) {a : Account}
    (ha : a ∈ st.db) : a ∈ ((rs.foldl (processAnalytical cid) st).db) :=
  foldl_inv (fun st' => a ∈ st'.db) (processAnalytical cid)
    (fun st' r h => mem_db_processAnalytical cid st' r h) rs st ha

/-- Soundness of the parent map plus positivity of all ids: every recorded
identifier belongs to an account of the company with the recorded code. -/
def MapInv (cid : Nat) (st : ImportState) : Prop :=
  (∀ c i, st.parent_map.lookup c = some i →
      ∃ a, a ∈ st.db ∧ a.code = c ∧ a.company_id = cid ∧ a.id = i)
  ∧ (∀ a, a ∈ st.db → 1 ≤ a.id)
  ∧ 1 ≤ st.nextId

lemma lookup_cons_cases {c k : String} {v i : Nat} {m : List (String × Nat)}
    (h : ((k, v) :: m).lookup c = some i) :
    (c = k ∧ i = v) ∨ (c ≠ k ∧ m.lookup c = some i) := by
  rw [List.lookup_cons] at h
  by_cases hck : c = k
  · left
    refine ⟨hck, ?_⟩
    have : (c == k) = true := by simp [hck]
    rw [this] at h
    simpa using h.symm
  · right
    refine ⟨hck, ?_⟩
    have : (c == k) = false := by simp [hck]
    rw [this] at h
    exact h

lemma mapInv_processSynthetic (cid : Nat) (st : ImportState) (r : Row)
    (h : MapInv cid st) : MapInv cid (processSynthetic cid st r) := by
  obtain ⟨hsound, hids, hnext⟩ := h
  unfold processSynthetic
  cases hlk : lookupAccount st.db (pyStrip r.kod) cid with
  | some existing =>
      simp only [hlk]
      refine ⟨?_, hids, hnext⟩
      intro c i hl
      rcases lookup_cons_cases hl with ⟨rfl, rfl⟩ | ⟨_, hl'⟩
      · obtain ⟨a, ha, hcode, hcid, hid⟩ := lookupAccount_eq_some hlk
        exact ⟨a, ha, hcode, hcid, hid⟩
      · exact hsound c i hl'
  | none =>
      simp only [hlk]
      refine ⟨?_, ?_, ?_⟩
      · intro c i hl
        rcases lookup_cons_cases hl with ⟨rfl, rfl⟩ | ⟨_, hl'⟩
        · exact ⟨mkSynAccount cid st.nextId r,
            List.mem_append_right _ (List.mem_singleton_self _), rfl, rfl, rfl⟩
        · obtain ⟨a, ha, h1, h2, h3⟩ := hsound c i hl'
          exact ⟨a, List.mem_append_left _ ha, h1, h2, h3⟩
      · intro a ha
        rcases List.mem_append.mp ha with ha' | ha'
        · exact hids a ha'
        · rw [List.mem_singleton.mp ha']
          exact hnext
      · exact Nat.le_succ_of_le hnext

lemma mapInv_processAnalytical (cid : Nat) (st : ImportState) (r : Row)
    (h : MapInv cid st) : MapInv cid (processAnalytical cid st r) := by
  obtain ⟨hsound, hids, hnext⟩ := h
  unfold processAnalytical
  cases hlk : lookupAccount st.db (pyStrip r.kod) cid with
  | some existing =>
      simp only [hlk]
      exact ⟨hsound, hids, hnext⟩
  | none =>
      simp only [hlk]
      refine ⟨?_, ?_, ?_⟩
      · intro c i hl
        obtain ⟨a, ha, h1, h2, h3⟩ := hsound c i hl
        exact ⟨a, List.mem_append_left _ ha, h1, h2, h3⟩
      · intro a ha
        rcases List.mem_append.mp ha with ha' | ha'
        · exact hids a ha'
        · rw [List.mem_singleton.mp ha']
          exact hnext
      · exact Nat.le_succ_of_le hnext

lemma mapInv_foldl_syn (cid : Nat) (rs : List Row) (st : ImportState)
    (h : MapInv cid st) : MapInv cid (rs.foldl (processSynthetic cid) st) :=
  foldl_inv (MapInv cid) (processSynthetic cid)
    (fun st' r h' => mapInv_processSynthetic cid st' r h') rs st h

lemma mapInv_foldl_ana (cid : Nat) (rs : List Row) (st : ImportState)
    (h : MapInv cid st) : MapInv cid (rs.foldl (processAnalytical cid) st) :=
  foldl_inv (MapInv cid) (processAnalytical cid)
    (fun st' r h' => mapInv_processAnalytical cid st' r h') rs st h

lemma mapInv_init (db : DB) (cid sid : Nat)
    (hids : ∀ a, a ∈ db → 1 ≤ a.id) (hsid : 1 ≤ sid) :
    MapInv cid (initState db cid sid) := by
  refine ⟨?_, ?_, hsid⟩
  · intro c i hl
    simp [initState] at hl
  · intro a ha
    exact hids a (List.mem_of_mem_filter ha)

/-- A binding, once present, survives later map updates (they only cons). -/
lemma lookup_some_cons {c : String} (p : String × Nat) {m : List (String × Nat)}
    (h : ∃ i, m.lookup c = some i) : ∃ i, ((p :: m).lookup c = some i) := by
  obtain ⟨i, hi⟩ := h
  rcases p with ⟨k, v⟩
  rw [List.lookup_cons]
  cases hck : c == k
  · exact ⟨i, hi⟩
  · exact ⟨v, rfl⟩

lemma lookup_some_processSynthetic (cid : Nat) (st : ImportState) (r : Row) {c : String}
    (h : ∃ i, st.parent_map.lookup c = some i) :
    ∃ i, ((processSynthetic cid st r).parent_map.lookup c = some i) := by
  unfold processSynthetic
  cases hlk : lookupAccount st.db (pyStrip r.kod) cid <;> simp only [hlk] <;>
    exact lookup_some_cons _ h

lemma lookup_some_foldl_syn (cid : Nat) {c : String} (rs : List Row) (st : ImportState)
    (h : ∃ i, st.parent_map.lookup c = some i) :
    ∃ i, (((rs.foldl (processSynthetic cid) st).parent_map.lookup c) = some i) :=
  foldl_inv (fun st' => ∃ i, st'.parent_map.lookup c = some i) (processSynthetic cid)
    (fun st' r h' => lookup_some_processSynthetic cid st' r h') rs st h

/-- Every synthetic row's (trimmed) code ends up as a key of the map. -/
lemma synFold_complete (cid : Nat) :
    ∀ (rs : List Row) (st : ImportState) (r : Row), r ∈ rs →
      ∃ i, (((rs.foldl (processSynthetic cid) st).parent_map.lookup (pyStrip r.kod)) = some i) := by
  intro rs
  induction rs with
  | nil => intro st r hr; cases hr
  | cons x xs ih =>
      intro st r hr
      rcases List.mem_cons.mp hr with rfl | hr'
      · refine lookup_some_foldl_syn cid xs (processSynthetic cid st r) ?_
        unfold processSynthetic
        cases hlk : lookupAccount st.db (pyStrip r.kod) cid <;> simp [hlk, List.lookup_cons]
      · exact ih (processSynthetic cid st x) r hr'

/-- Keys of the map originate from processed synthetic rows. -/
lemma lookup_keys_processSynthetic (cid : Nat) (st : ImportState) (r : Row)
    {P : String → Prop} (hr : P (pyStrip r.kod))
    (h : ∀ c i, st.parent_map.lookup c = some i → P c) :
    ∀ c i, (processSynthetic cid st r).parent_map.lookup c = some i → P c := by
  intro c i hl
  unfold processSynthetic at hl
  cases hlk : lookupAccount st.db (pyStrip r.kod) cid <;> simp only [hlk] at hl <;>
    rcases lookup_cons_cases hl with ⟨rfl, _⟩ | ⟨_, hl'⟩ <;>
    first
      | exact hr
      | exact h c _ hl'

lemma lookup_keys_foldl_syn (cid : Nat) {P : String → Prop} :
    ∀ (rs : List Row) (st : ImportState), (∀ r, r ∈ rs → P (pyStrip r.kod)) →
      (∀ c i, st.parent_map.lookup c = some i → P c) →
      ∀ c i, ((rs.foldl (processSynthetic cid) st).parent_map.lookup c = some i) → P c := by
  intro rs
  induction rs with
  | nil => intro st _ h; exact h
  | cons x xs ih =>
      intro st hrs h
      exact ih (processSynthetic cid st x)
        (fun r hr => hrs r (List.mem_cons_of_mem x hr))
        (lookup_keys_processSynthetic cid st x (hrs x (List.mem_cons_self x xs)) h)

/-- Every row of the table during the run is either a purge survivor or was
inserted by this run (id at least `startId`). -/
def FreshInv (base : DB) (startId : Nat) (st : ImportState) : Prop :=
  (∀ b, b ∈ st.db → b ∈ base ∨ startId ≤ b.id) ∧ startId ≤ st.nextId

lemma freshInv_processSynthetic (base : DB) (startId cid : Nat) (st : ImportState) (r : Row)
    (h : FreshInv base startId st) : FreshInv base startId (processSynthetic cid st r) := by
  obtain ⟨hmem, hnext⟩ := h
  unfold processSynthetic
  cases hlk : lookupAccount st.db (pyStrip r.kod) cid with
  | some existing =>
      simp only [hlk]
      exact ⟨hmem, hnext⟩
  | none =>
      simp only [hlk]
      refine ⟨?_, Nat.le_succ_of_le hnext⟩
      intro b hb
      rcases List.mem_append.mp hb with hb' | hb'
      · exact hmem b hb'
      · rw [List.mem_singleton.mp hb']
        exact Or.inr hnext

lemma freshInv_processAnalytical (base : DB) (startId cid : Nat) (st : ImportState) (r : Row)
    (h : FreshInv base startId st) : FreshInv base startId (processAnalytical cid st r) := by
  obtain ⟨hmem, hnext⟩ := h
  unfold processAnalytical
  cases hlk : lookupAccount st.db (pyStrip r.kod) cid with
  | some existing =>
      simp only [hlk]
      exact ⟨hmem, hnext⟩
  | none =>
      simp only [hlk]
      refine ⟨?_, Nat.le_succ_of_le hnext⟩
      intro b hb
      rcases List.mem_append.mp hb with hb' | hb'
      · exact hmem b hb'
      · rw [List.mem_singleton.mp hb']
        exact Or.inr hnext

lemma freshInv_import (db : DB) (rows : List Row) (cid startId : Nat) :
    FreshInv (purge db cid) startId (import_accounts db rows cid startId) := by
  unfold import_accounts synPass
  apply foldl_inv (FreshInv (purge db cid) startId) (processAnalytical cid)
    (fun st' r h' => freshInv_processAnalytical _ _ _ st' r h')
  apply foldl_inv (FreshInv (purge db cid) startId) (processSynthetic cid)
    (fun st' r h' => freshInv_processSynthetic _ _ _ st' r h')
  exact ⟨fun b hb => Or.inl hb, Nat.le_refl _⟩

/-! ### The company's code list evolves by `ins` at every processed row -/

lemma companyCodes_processSynthetic (cid : Nat) (st : ImportState) (r : Row) :
    companyCodes (processSynthetic cid st r).db cid =
      ins (companyCodes st.db cid) ((pyStrip r.kod)) := by
  unfold processSynthetic ins
  cases h : lookupAccount st.db (pyStrip r.kod) cid with
  | some i =>
      obtain ⟨a, ha, hcode, hcid, _⟩ := lookupAccount_eq_some h
      have hmem : (pyStrip r.kod) ∈ companyCodes st.db cid :=
        mem_companyCodes.mpr ⟨a, ha, hcid, hcode⟩
      simp [h, hmem]
  | none =>
      have hmem : (pyStrip r.kod) ∉ companyCodes st.db cid := lookupAccount_eq_none.mp h
      simp [h, hmem, companyCodes_append_one, mkSynAccount]

lemma companyCodes_processAnalytical (cid : Nat) (st : ImportState) (r : Row) :
    companyCodes (processAnalytical cid st r).db cid =
      ins (companyCodes st.db cid) ((pyStrip r.kod)) := by
  unfold processAnalytical ins
  cases h : lookupAccount st.db (pyStrip r.kod) cid with
  | some i =>
      obtain ⟨a, ha, hcode, hcid, _⟩ := lookupAccount_eq_some h
      have hmem : (pyStrip r.kod) ∈ companyCodes st.db cid :=
        mem_companyCodes.mpr ⟨a, ha, hcid, hcode⟩
      simp [h, hmem]
  | none =>
      have hmem : (pyStrip r.kod) ∉ companyCodes st.db cid := lookupAccount_eq_none.mp h
      simp [h, hmem, companyCodes_append_one, mkAnaAccount]

lemma companyCodes_foldl_syn (cid : Nat) :
    ∀ (rs : List Row) (st : ImportState),
      companyCodes ((rs.foldl (processSynthetic cid) st).db) cid =
        (rs.map (fun r => (pyStrip r.kod))).foldl ins (companyCodes st.db cid) := by
  intro rs
  induction rs with
  | nil => intro st; rfl
  | cons r rs ih =>
      intro st
      simp only [List.foldl_cons, List.map_cons, ih, companyCodes_processSynthetic]

lemma companyCodes_foldl_ana (cid : Nat) :
    ∀ (rs : List Row) (st : ImportState),
      companyCodes ((rs.foldl (processAnalytical cid) st).db) cid =
        (rs.map (fun r => (pyStrip r.kod))).foldl ins (companyCodes st.db cid) := by
  intro rs
  induction rs with
  | nil => intro st; rfl
  | cons r rs ih =>
      intro st
      simp only [List.foldl_cons, List.map_cons, ih, companyCodes_processAnalytical]

lemma map_filter_comp {α β : Type} (f : α → β) (p : β → Bool) :
    ∀ l : List α, (l.filter (fun a => p (f a))).map f = (l.map f).filter p := by
  intro l
  induction l with
  | nil => rfl
  | cons a l ih =>
      by_cases h : p (f a) = true
      · simp [List.filter_cons, h, ih]
      · simp only [Bool.not_eq_true] at h
        simp [List.filter_cons, h, ih]

/-- After the purge, the company's code list is the original one restricted
to the seed codes. -/
lemma companyCodes_purge (db : DB) (cid : Nat) :
    companyCodes (purge db cid) cid =
      (companyCodes db cid).filter (fun c => seedCodes.contains c) := by
  induction db with
  | nil => rfl
  | cons a db ih =>
      simp [purge, companyCodes, companyRows] at ih ⊢
      by_cases h : a.company_id = cid <;> by_cases h2 : a.code ∈ seedCodes <;>
        simp [h, h2, ih, List.filter_cons]

/-- The two-pass import, seen through the company's code list: fold `ins`
over the trimmed file codes starting from the purged code list. -/
lemma companyCodes_import (db : DB) (rows : List Row) (cid startId : Nat) :
    companyCodes (import_accounts db rows cid startId).db cid =
      (fileCodes rows).foldl ins (companyCodes (purge db cid) cid) := by
  unfold import_accounts synPass fileCodes
  rw [companyCodes_foldl_ana, companyCodes_foldl_syn, List.foldl_append]
  rfl

/-! ### Combinatorics of the `ins` fold -/

/-- The codes a run of guarded inserts adds, over base `B`, when the codes
`acc` were already added. -/
def newPartAux (B acc cs : List String) : List String :=
  cs.foldl (fun a c => if c ∈ B ++ a then a else a ++ [c]) acc

/-- The codes a run of guarded inserts adds over base `B`. -/
def newPart (B cs : List String) : List String :=
  newPartAux B [] cs

lemma newPartAux_cons (B acc : List String) (c : String) (cs : List String) :
    newPartAux B acc (c :: cs) =
      newPartAux B (if c ∈ B ++ acc then acc else acc ++ [c]) cs := rfl

lemma foldl_ins_eq_append :
    ∀ (cs B acc : List String), cs.foldl ins (B ++ acc) = B ++ newPartAux B acc cs := by
  intro cs
  induction cs with
  | nil => intro B acc; rfl
  | cons c cs ih =>
      intro B acc
      rw [List.foldl_cons, newPartAux_cons]
      by_cases h : c ∈ B ++ acc
      · rw [ins, if_pos h, if_pos h]
        exact ih B acc
      · rw [ins, if_neg h, if_neg h, List.append_assoc]
        exact ih B (acc ++ [c])

lemma foldl_ins_eq (cs B : List String) : cs.foldl ins B = B ++ newPart B cs := by
  have h := foldl_ins_eq_append cs B []
  simpa [newPart] using h

/-- Widening the base of the guarded-insert run by `X` removes exactly the
codes of `X` from what gets added. -/
lemma newPartAux_base_append (X : List String) :
    ∀ (cs B acc : List String),
      newPartAux (B ++ X) (acc.filter (fun c => decide (c ∉ X))) cs
        = (newPartAux B acc cs).filter (fun c => decide (c ∉ X)) := by
  intro cs
  induction cs with
  | nil => intro B acc; rfl
  | cons c cs ih =>
      intro B acc
      rw [newPartAux_cons, newPartAux_cons]
      by_cases hX : c ∈ X
      · have h1 : c ∈ (B ++ X) ++ acc.filter (fun c => decide (c ∉ X)) := by
          simp [List.mem_append, hX]
        rw [if_pos h1]
        by_cases h2 : c ∈ B ++ acc
        · rw [if_pos h2]; exact ih B acc
        · rw [if_neg h2]
          have hfe : (acc ++ [c]).filter (fun c => decide (c ∉ X)) =
              acc.filter (fun c => decide (c ∉ X)) := by
            simp [List.filter_append, hX]
          rw [← hfe]
          exact ih B (acc ++ [c])
      · have hiff : (c ∈ (B ++ X) ++ acc.filter (fun c => decide (c ∉ X))) ↔ c ∈ B ++ acc := by
          simp only [List.mem_append, List.mem_filter, decide_eq_true_eq]
          constructor
          · rintro ((hb | hx) | ⟨ha, _⟩)
            · exact Or.inl hb
            · exact absurd hx hX
            · exact Or.inr ha
          · rintro (hb | ha)
            · exact Or.inl (Or.inl hb)
            · exact Or.inr ⟨ha, hX⟩
        by_cases h2 : c ∈ B ++ acc
        · rw [if_pos (hiff.mpr h2), if_pos h2]; exact ih B acc
        · rw [if_neg (fun hh => h2 (hiff.mp hh)), if_neg h2]
          have hfe : (acc ++ [c]).filter (fun c => decide (c ∉ X)) =
              acc.filter (fun c => decide (c ∉ X)) ++ [c] := by
            simp [List.filter_append, hX]
          rw [← hfe]
          exact ih B (acc ++ [c])

lemma newPart_base_append (B X cs : List String) :
    newPart (B ++ X) cs = (newPart B cs).filter (fun c => decide (c ∉ X)) := by
  have h := newPartAux_base_append X cs B []
  simpa [newPart] using h

lemma length_filter_partition {α : Type} (p : α → Bool) :
    ∀ l : List α, (l.filter p).length + (l.filter (fun a => !(p a))).length = l.length := by
  intro l
  induction l with
  | nil => rfl
  | cons a l ih =>
      by_cases h : p a = true
      · simp [List.filter_cons, h]
        omega
      · simp only [Bool.not_eq_true] at h
        simp [List.filter_cons, h]
        omega

lemma countCompany_codes (db : DB) (cid : Nat) :
    countCompany db cid = (companyCodes db cid).length := by
  simp [countCompany, companyCodes]

lemma seedFilter_idem (l : List String) :
    (l.filter (fun c => seedCodes.contains c)).filter (fun c => seedCodes.contains c)
      = l.filter (fun c => seedCodes.contains c) := by
  rw [List.filter_filter]
  apply List.filter_congr
  intro x _
  exact Bool.and_self _

/-- Company row count after a run: surviving seed rows plus newly inserted
distinct codes. -/
lemma run_count (db : DB) (rows : List Row) (cid sid : Nat) :
    countCompany (import_accounts db rows cid sid).db cid
      = (companyCodes (purge db cid) cid).length
        + (newPart (companyCodes (purge db cid) cid) (fileCodes rows)).length := by
  rw [countCompany_codes, companyCodes_import, foldl_ins_eq, List.length_append]

/-- Core counting identity behind idempotence: re-running the guarded
inserts over the survivors of a previous run adds back exactly the non-seed
codes the purge removed. -/
lemma ins_count_idem (E F : List String)
    (hE : E.filter (fun c => seedCodes.contains c) = E) :
    ((E ++ newPart E F).filter (fun c => seedCodes.contains c)).length
      + (newPart ((E ++ newPart E F).filter (fun c => seedCodes.contains c)) F).length
    = E.length + (newPart E F).length := by
  rw [List.filter_append, hE, newPart_base_append]
  have hcong : ((newPart E F).filter
        (fun c => decide (c ∉ (newPart E F).filter (fun c => seedCodes.contains c))))
      = (newPart E F).filter (fun c => !(seedCodes.contains c)) := by
    apply List.filter_congr
    intro c hc
    by_cases h : seedCodes.contains c = true
    · have hm : c ∈ (newPart E F).filter (fun c => seedCodes.contains c) :=
        List.mem_filter.mpr ⟨hc, h⟩
      simp [hm, h]
      exact fun hnc => absurd hc hnc
    · have hfalse : seedCodes.contains c = false := by
        cases hcc : seedCodes.contains c
        · rfl
        · exact absurd hcc h
      have hm : c ∉ (newPart E F).filter (fun c => seedCodes.contains c) := by
        intro hmem
        exact h (List.mem_filter.mp hmem).2
      simp [hm, hfalse]
      exact fun hnc => absurd hc hnc
  rw [hcong, List.length_append]
  have hp := length_filter_partition (fun c => seedCodes.contains c) (newPart E F)
  omega

/-! ### The transactional interpreter against the happy-path import -/

lemma txDelete_failed_absorb (cid : Nat) (s : RunState) (h : s.failed = true) :
    txDelete cid s = s := by
  simp [txDelete, h]

lemma txSynStep_failed_absorb (cid : Nat) (s : RunState) (r : Row) (h : s.failed = true) :
    txSynStep cid s r = s := by
  simp [txSynStep, h]

lemma txAnaStep_failed_absorb (cid : Nat) (s : RunState) (r : Row) (h : s.failed = true) :
    txAnaStep cid s r = s := by
  simp [txAnaStep, h]

lemma foldl_fix {α β : Type} (f : β → α → β) (s : β) (h : ∀ a, f s a = s) :
    ∀ l : List α, l.foldl f s = s := by
  intro l
  induction l with
  | nil => rfl
  | cons x xs ih => rw [List.foldl_cons, h x, ih]

lemma foldl_txSyn_absorb (cid : Nat) (rs : List Row) (s : RunState) (h : s.failed = true) :
    rs.foldl (txSynStep cid) s = s :=
  foldl_fix _ _ (fun r => txSynStep_failed_absorb cid s r h) rs

lemma foldl_txAna_absorb (cid : Nat) (rs : List Row) (s : RunState) (h : s.failed = true) :
    rs.foldl (txAnaStep cid) s = s :=
  foldl_fix _ _ (fun r => txAnaStep_failed_absorb cid s r h) rs

lemma txDelete_committed (cid : Nat) (s : RunState) : (txDelete cid s).committed = s.committed := by
  unfold txDelete
  split
  · rfl
  · split <;> rfl

lemma txSynStep_committed (cid : Nat) (s : RunState) (r : Row) :
    (txSynStep cid s r).committed = s.committed := by
  unfold txSynStep
  split
  · rfl
  · split
    · rfl
    · dsimp only
      cases hlk : lookupAccount s.pending (pyStrip r.kod) cid <;> simp only [hlk]
      split <;> rfl

lemma txAnaStep_committed (cid : Nat) (s : RunState) (r : Row) :
    (txAnaStep cid s r).committed = s.committed := by
  unfold txAnaStep
  split
  · rfl
  · split
    · rfl
    · dsimp only
      cases hlk : lookupAccount s.pending (pyStrip r.kod) cid <;> simp only [hlk]
      split <;> rfl

lemma txCount_committed (s : RunState) : (txCount s).committed = s.committed := by
  unfold txCount
  split
  · rfl
  · split <;> rfl

lemma foldl_txSyn_committed (cid : Nat) (rs : List Row) (s : RunState) :
    (rs.foldl (txSynStep cid) s).committed = s.committed := by
  refine foldl_inv (fun s' => s'.committed = s.committed) (txSynStep cid) ?_ rs s rfl
  intro s' r h
  rw [txSynStep_committed, h]

lemma foldl_txAna_committed (cid : Nat) (rs : List Row) (s : RunState) :
    (rs.foldl (txAnaStep cid) s).committed = s.committed := by
  refine foldl_inv (fun s' => s'.committed = s.committed) (txAnaStep cid) ?_ rs s rfl
  intro s' r h
  rw [txAnaStep_committed, h]

/-- The pending side of a non-failed transaction agrees with the
happy-path import state. -/
def TxRel (s : RunState) (st : ImportState) : Prop :=
  s.pending = st.db ∧ s.parent_map = st.parent_map ∧ s.nextId = st.nextId

lemma txSynStep_rel (cid : Nat) (s : RunState) (st : ImportState) (r : Row)
    (hrel : TxRel s st) (hok : (txSynStep cid s r).failed = false) :
    TxRel (txSynStep cid s r) (processSynthetic cid st r) := by
  obtain ⟨hp, hm, hn⟩ := hrel
  have hsf : s.failed = false := by
    by_cases h : s.failed = true
    · rw [txSynStep_failed_absorb cid s r h, h] at hok
      cases hok
    · simpa using h
  by_cases hfu : s.fuel = 0
  · exfalso
    simp [txSynStep, hsf, hfu] at hok
  · cases hlk : lookupAccount st.db (pyStrip r.kod) cid with
    | some i =>
        unfold txSynStep processSynthetic
        simp only [hsf, hfu, hp, hm, hn, hlk, Bool.false_eq_true, if_false, ite_false]
        exact ⟨rfl, rfl, rfl⟩
    | none =>
        by_cases hfu2 : s.fuel - 1 = 0
        · exfalso
          simp [txSynStep, hsf, hfu, hp, hlk, hfu2] at hok
        · unfold txSynStep processSynthetic
          simp only [hsf, hfu, hp, hm, hn, hlk, hfu2, Bool.false_eq_true, if_false, ite_false]
          exact ⟨rfl, rfl, rfl⟩

lemma txAnaStep_rel (cid : Nat) (s : RunState) (st : ImportState) (r : Row)
    (hrel : TxRel s st) (hok : (txAnaStep cid s r).failed = false) :
    TxRel (txAnaStep cid s r) (processAnalytical cid st r) := by
  obtain ⟨hp, hm, hn⟩ := hrel
  have hsf : s.failed = false := by
    by_cases h : s.failed = true
    · rw [txAnaStep_failed_absorb cid s r h, h] at hok
      cases hok
    · simpa using h
  by_cases hfu : s.fuel = 0
  · exfalso
    simp [txAnaStep, hsf, hfu] at hok
  · cases hlk : lookupAccount st.db (pyStrip r.kod) cid with
    | some i =>
        unfold txAnaStep processAnalytical
        simp only [hsf, hfu, hp, hm, hn, hlk, Bool.false_eq_true, if_false, ite_false]
        exact ⟨rfl, rfl, rfl⟩
    | none =>
        by_cases hfu2 : s.fuel - 1 = 0
        · exfalso
          simp [txAnaStep, hsf, hfu, hp, hlk, hfu2] at hok
        · unfold txAnaStep processAnalytical
          simp only [hsf, hfu, hp, hm, hn, hlk, hfu2, Bool.false_eq_true, if_false, ite_false]
          exact ⟨rfl, rfl, rfl⟩

lemma txFold_rel_syn (cid : Nat) :
    ∀ (rs : List Row) (s : RunState) (st : ImportState), TxRel s st →
      ((rs.foldl (txSynStep cid) s).failed = false) →
      TxRel (rs.foldl (txSynStep cid) s) (rs.foldl (processSynthetic cid) st) := by
  intro rs
  induction rs with
  | nil => intro s st h _; exact h
  | cons r rs ih =>
      intro s st h hok
      have hok1 : (txSynStep cid s r).failed = false := by
        by_cases hf : (txSynStep cid s r).failed = true
        · rw [List.foldl_cons, foldl_txSyn_absorb cid rs _ hf] at hok
          rw [hf] at hok
          cases hok
        · simpa using hf
      rw [List.foldl_cons] at hok ⊢
      rw [List.foldl_cons]
      exact ih _ _ (txSynStep_rel cid s st r h hok1) hok

lemma txFold_rel_ana (cid : Nat) :
    ∀ (rs : List Row) (s : RunState) (st : ImportState), TxRel s st →
      ((rs.foldl (txAnaStep cid) s).failed = false) →
      TxRel (rs.foldl (txAnaStep cid) s) (rs.foldl (processAnalytical cid) st) := by
  intro rs
  induction rs with
  | nil => intro s st h _; exact h
  | cons r rs ih =>
      intro s st h hok
      have hok1 : (txAnaStep cid s r).failed = false := by
        by_cases hf : (txAnaStep cid s r).failed = true
        · rw [List.foldl_cons, foldl_txAna_absorb cid rs _ hf] at hok
          rw [hf] at hok
          cases hok
        · simpa using hf
      rw [List.foldl_cons] at hok ⊢
      rw [List.foldl_cons]
      exact ih _ _ (txAnaStep_rel cid s st r h hok1) hok

/-- Generic invariant preservation along a left fold, where the step property
is only needed for elements of the list. -/
lemma foldl_inv_mem {α β : Type} (P : β → Prop) (f : β → α → β) :
    ∀ (l : List α), (∀ b a, a ∈ l → P b → P (f b a)) →
      ∀ (b : β), P b → P (l.foldl f b) := by
  intro l
  induction l with
  | nil => intro _ b hb; exact hb
  | cons x xs ih =>
      intro h b hb
      exact ih (fun b' a ha hb' => h b' a (List.mem_cons_of_mem x ha) hb')
        (f b x) (h b x (List.mem_cons_self x xs) hb)

/-!
## Claim theorems

Concrete fixture rows and accounts used by witnesses and counterexamples.
-/

/-- C7: Running the importer a second time on the same file and company,
immediately after a successful first run, leaves the total number of account
rows for that company unchanged (idempotence with respect to row count; no
code is duplicated). -/
theorem C7_second_run_count_idempotent (db : DB) (rows : List Row) (cid sid1 sid2 : Nat) :
    countCompany (import_accounts (import_accounts db rows cid sid1).db rows cid sid2).db cid
      = countCompany (import_accounts db rows cid sid1).db cid := by
  rw [run_count, run_count]
  have hpurge2 : companyCodes (purge (import_accounts db rows cid sid1).db cid) cid
      = (companyCodes (purge db cid) cid
          ++ newPart (companyCodes (purge db cid) cid) (fileCodes rows)).filter
            (fun c => seedCodes.contains c) := by
    rw [companyCodes_purge, companyCodes_import, foldl_ins_eq]
  rw [hpurge2]
  exact ins_count_idem _ _ (by rw [companyCodes_purge, seedFilter_idem])

/-- C9 counterexample: a code with leading character '0' yields
`account_class = 0`, outside the claimed range 1–9. -/
theorem C9_counterexample_leading_zero :
    get_account_class "012" = 0 ∧ ¬ 1 ≤ get_account_class "012" := by decide

/-- C9 (amended): `account_class` is the integer value of the first character
of `code` when it is a digit and 1 when `code` is empty or non-digit-initial;
it is always at most 9 and is at least 1 unless the code starts with '0'
(for which it is 0); `"4111"` yields 4 and `""` yields 1. -/
theorem C9_account_class_derivation :
    (∀ (code : String) (c : Char) (cs : List Char), code.data = c :: cs →
        c.isDigit = true → get_account_class code = c.toNat - '0'.toNat)
    ∧ (∀ (code : String) (c : Char) (cs : List Char), code.data = c :: cs →
        c.isDigit = false → get_account_class code = 1)
    ∧ get_account_class "" = 1
    ∧ (∀ code : String, get_account_class code ≤ 9)
    ∧ (∀ (code : String) (c : Char) (cs : List Char), code.data = c :: cs →
        c ≠ '0' → 1 ≤ get_account_class code)
    ∧ get_account_class "4111" = 4 := by
  have hne : ∀ (code : String) (c : Char) (cs : List Char), code.data = c :: cs →
      ¬ code = "" := by
    intro code c cs hdata h0
    rw [h0] at hdata
    cases hdata
  have hdigit_bounds : ∀ c : Char, c.isDigit = true → 48 ≤ c.toNat ∧ c.toNat ≤ 57 := by
    intro c h
    simp [Char.isDigit] at h
    obtain ⟨h1, h2⟩ := h
    rw [UInt32.le_def, BitVec.le_def] at h1 h2
    exact ⟨h1, h2⟩
  refine ⟨?_, ?_, by decide, ?_, ?_, by decide⟩
  · intro code c cs hdata hdig
    unfold get_account_class
    rw [if_neg (hne code c cs hdata)]
    simp only [hdata, hdig, if_true]
  · intro code c cs hdata hdig
    unfold get_account_class
    rw [if_neg (hne code c cs hdata)]
    simp only [hdata, hdig, Bool.false_eq_true, if_false]
  · intro code
    unfold get_account_class
    by_cases h0 : code = ""
    · simp [h0]
    · rw [if_neg h0]
      cases hdata : code.data with
      | nil => dsimp only; decide
      | cons c cs =>
          dsimp only
          by_cases hdig : c.isDigit = true
          · rw [if_pos hdig]
            obtain ⟨_, hub⟩ := hdigit_bounds c hdig
            have : ('0'.toNat : Nat) = 48 := by decide
            omega
          · simp only [Bool.not_eq_true] at hdig
            simp [hdig]
  · intro code c cs hdata hc0
    unfold get_account_class
    rw [if_neg (hne code c cs hdata)]
    simp only [hdata]
    by_cases hdig : c.isDigit = true
    · rw [if_pos hdig]
      obtain ⟨hlb, _⟩ := hdigit_bounds c hdig
      have hne48 : c.toNat ≠ 48 := by
        intro h48
        apply hc0
        exact Char.ext (UInt32.ext (h48.trans (by decide)))
      have : ('0'.toNat : Nat) = 48 := by decide
      omega
    · simp only [Bool.not_eq_true] at hdig
      simp [hdig]

/-- C9 amended witness at concrete inputs. -/
theorem C9_account_class_derivation_witness :
    get_account_class "4111" = '4'.toNat - '0'.toNat ∧ get_account_class "abc" = 1 := by
  constructor
  · exact C9_account_class_derivation.1 "4111" '4' ['1', '1', '1'] (by decide) (by decide)
  · exact C9_account_class_derivation.2.1 "abc" 'a' ['b', 'c'] (by decide) (by decide)

/-- C10: An input row whose record-type column is neither 'СИНТЕТИЧНА' nor
'АНАЛИТИЧНА' is silently ignored: removing it changes neither the
happy-path import (database, map, next id) nor the transactional run
(database, exit code). -/
theorem C10_unknown_type_rows_ignored (db : DB) (l1 l2 : List Row) (r : Row)
    (cid startId fuel : Nat)
    (h1 : r.tipSmetka ≠ "СИНТЕТИЧНА") (h2 : r.tipSmetka ≠ "АНАЛИТИЧНА") :
    import_accounts db (l1 ++ r :: l2) cid startId = import_accounts db (l1 ++ l2) cid startId
    ∧ import_run db (l1 ++ r :: l2) cid startId fuel
        = import_run db (l1 ++ l2) cid startId fuel := by
  have hb1 : (r.tipSmetka == "СИНТЕТИЧНА") = false := by simp [h1]
  have hb2 : (r.tipSmetka == "АНАЛИТИЧНА") = false := by simp [h2]
  have hsyn : synRows (l1 ++ r :: l2) = synRows (l1 ++ l2) := by
    unfold synRows
    rw [List.filter_append, List.filter_append, List.filter_cons, hb1]
    simp
  have hana : anaRows (l1 ++ r :: l2) = anaRows (l1 ++ l2) := by
    unfold anaRows
    rw [List.filter_append, List.filter_append, List.filter_cons, hb2]
    simp
  constructor
  · unfold import_accounts synPass
    rw [hsyn, hana]
  · unfold import_run runStates
    rw [hsyn, hana]

/-- C10 witness: the fixture row of unknown type is ignored on a concrete run. -/
theorem C10_unknown_type_rows_ignored_witness :
    import_accounts [] ([] ++ rowUnknown :: [rowSyn41]) 1 1 = import_accounts [] ([] ++ [rowSyn41]) 1 1
    ∧ import_run [] ([] ++ rowUnknown :: [rowSyn41]) 1 1 9
        = import_run [] ([] ++ [rowSyn41]) 1 1 9 :=
  C10_unknown_type_rows_ignored [] [] [rowSyn41] rowUnknown 1 1 9 (by decide) (by decide)

/-- Helper for C3/C4: membership in the purge result, for rows of the
original table. -/
lemma mem_purge_iff {db : DB} {cid : Nat} {a : Account} (ha : a ∈ db) :
    a ∈ purge db cid ↔ ¬(a.company_id = cid ∧ a.code ∉ seedCodes) := by
  unfold purge
  constructor
  · intro hp hand
    have hpred := (List.mem_filter.mp hp).2
    have hcomp : (a.company_id == cid) = true := by simp [hand.1]
    have hseed : seedCodes.contains a.code = false := by
      cases hcc : seedCodes.contains a.code
      · rfl
      · exact absurd (by simpa using hcc) hand.2
    rw [hcomp, hseed] at hpred
    cases hpred
  · intro hn
    refine List.mem_filter.mpr ⟨ha, ?_⟩
    by_cases hc : a.company_id = cid
    · have hs : a.code ∈ seedCodes := by
        by_contra hns
        exact hn ⟨hc, hns⟩
      have hcomp : (a.company_id == cid) = true := by simp [hc]
      have hseed : seedCodes.contains a.code = true := by simpa using hs
      rw [hcomp, hseed]
      rfl
    · have hcomp : (a.company_id == cid) = false := by simp [hc]
      rw [hcomp]
      rfl

/-- Helper for C3/C4: an account that the purge keeps is still present after
the whole run. -/
lemma survivor_in_import (db : DB) (rows : List Row) (cid startId : Nat) {a : Account}
    (hp : a ∈ purge db cid) : a ∈ (import_accounts db rows cid startId).db := by
  unfold import_accounts synPass
  exact mem_db_foldl_ana cid _ _ (mem_db_foldl_syn cid _ _ hp)

/-- C4: The purge removes exactly the company's existing accounts whose code
is not one of the seed codes '101', '201', '301'; it removes nothing else
(it is a sublist of the table), and every pre-existing account of another
company or with a seed code is still present, unmodified, after the run. -/
theorem C4_purge_exactly_nonseed_company (db : DB) (rows : List Row) (cid startId : Nat)
    (a : Account) (ha : a ∈ db) :
    List.Sublist (purge db cid) db
    ∧ (a ∈ purge db cid ↔ ¬(a.company_id = cid ∧ a.code ∉ seedCodes))
    ∧ ((a.company_id ≠ cid ∨ a.code ∈ seedCodes) → a ∈ (import_accounts db rows cid startId).db) := by
  refine ⟨List.filter_sublist _, mem_purge_iff ha, ?_⟩
  intro hk
  apply survivor_in_import
  rw [mem_purge_iff ha]
  rintro ⟨hc, hs⟩
  rcases hk with h | h
  · exact h hc
  · exact hs h

/-- C4 witness at a concrete pre-existing seed account. -/
theorem C4_purge_exactly_nonseed_company_witness :
    List.Sublist (purge [acct101, acct999] 1) [acct101, acct999]
    ∧ (acct101 ∈ purge [acct101, acct999] 1
        ↔ ¬(acct101.company_id = 1 ∧ acct101.code ∉ seedCodes))
    ∧ ((acct101.company_id ≠ 1 ∨ acct101.code ∈ seedCodes)
        → acct101 ∈ (import_accounts [acct101, acct999] [rowSyn41] 1 10).db) :=
  C4_purge_exactly_nonseed_company [acct101, acct999] [rowSyn41] 1 10 acct101 (by decide)

/-- C3 counterexample: a pre-existing non-seed account of the company is
deleted by the run, refuting the claim that every pre-existing account is
left untouched. -/
theorem C3_counterexample_nonseed_deleted :
    acct999 ∈ ([acct999] : DB) ∧ acct999 ∉ (import_accounts [acct999] [] 1 10).db := by
  decide

/-- C3 (amended): a pre-existing account is left untouched by the run exactly
when it belongs to another company or carries one of the seed codes '101',
'201', '301'; every other pre-existing account of the company is deleted by
the purge step (assuming fresh SERIAL ids for the run). -/
theorem C3_preexisting_untouched_iff_seed (db : DB) (rows : List Row) (cid startId : Nat)
    (a : Account) (ha : a ∈ db) (hfresh : ∀ b, b ∈ db → b.id < startId) :
    ((a.company_id ≠ cid ∨ a.code ∈ seedCodes) → a ∈ (import_accounts db rows cid startId).db)
    ∧ (a.company_id = cid → a.code ∉ seedCodes → a ∉ (import_accounts db rows cid startId).db) := by
  constructor
  · intro hk
    apply survivor_in_import
    rw [mem_purge_iff ha]
    rintro ⟨hc, hs⟩
    rcases hk with h | h
    · exact h hc
    · exact hs h
  · intro hc hs hmem
    obtain ⟨hsplitInv, _⟩ := freshInv_import db rows cid startId
    rcases hsplitInv a hmem with hin | hid
    · rw [mem_purge_iff ha] at hin
      exact hin ⟨hc, hs⟩
    · have := hfresh a ha
      omega

/-- C3 amended witness at concrete accounts. -/
theorem C3_preexisting_untouched_iff_seed_witness :
    ((acct999.company_id ≠ 1 ∨ acct999.code ∈ seedCodes)
        → acct999 ∈ (import_accounts [acct101, acct999] [] 1 10).db)
    ∧ (acct999.company_id = 1 → acct999.code ∉ seedCodes
        → acct999 ∉ (import_accounts [acct101, acct999] [] 1 10).db) :=
  C3_preexisting_untouched_iff_seed [acct101, acct999] [] 1 10 acct999 (by decide) (by decide)

/-- C5: A synthetic input row whose code is not present for the company at
the time it is processed is inserted with `parent_id = null`, `level = 1`,
`is_analytical = false`, `is_active = true`, the company's id and a freshly
generated identifier, which is recorded in the code-to-identifier map. -/
theorem C5_synthetic_insert_fields (db : DB) (rows : List Row) (cid startId : Nat)
    (S1 : List Row) (r : Row) (S2 : List Row)
    (hsplit : synRows rows = S1 ++ r :: S2)
    (hnew : lookupAccount (midSynState db cid startId S1).db (pyStrip r.kod) cid = none) :
    (processSynthetic cid (midSynState db cid startId S1) r).db
        = (midSynState db cid startId S1).db
            ++ [mkSynAccount cid (midSynState db cid startId S1).nextId r]
    ∧ (mkSynAccount cid (midSynState db cid startId S1).nextId r).code = (pyStrip r.kod)
    ∧ (mkSynAccount cid (midSynState db cid startId S1).nextId r).parent_id = none
    ∧ (mkSynAccount cid (midSynState db cid startId S1).nextId r).level = 1
    ∧ (mkSynAccount cid (midSynState db cid startId S1).nextId r).is_analytical = false
    ∧ (mkSynAccount cid (midSynState db cid startId S1).nextId r).is_active = true
    ∧ (mkSynAccount cid (midSynState db cid startId S1).nextId r).company_id = cid
    ∧ (mkSynAccount cid (midSynState db cid startId S1).nextId r).id
        = (midSynState db cid startId S1).nextId
    ∧ (processSynthetic cid (midSynState db cid startId S1) r).parent_map.lookup (pyStrip r.kod)
        = some (midSynState db cid startId S1).nextId := by
  refine ⟨?_, rfl, rfl, rfl, rfl, rfl, rfl, rfl, ?_⟩
  · unfold processSynthetic
    simp only [hnew]
  · unfold processSynthetic
    simp only [hnew, List.lookup_cons]
    simp

/-- C5 witness: concrete insertion of the fixture synthetic row. -/
theorem C5_synthetic_insert_fields_witness :
    (processSynthetic 1 (midSynState [] 1 1 []) rowSyn41).db
        = (midSynState [] 1 1 []).db ++ [mkSynAccount 1 (midSynState [] 1 1 []).nextId rowSyn41]
    ∧ (mkSynAccount 1 (midSynState [] 1 1 []).nextId rowSyn41).code = (pyStrip rowSyn41.kod)
    ∧ (mkSynAccount 1 (midSynState [] 1 1 []).nextId rowSyn41).parent_id = none
    ∧ (mkSynAccount 1 (midSynState [] 1 1 []).nextId rowSyn41).level = 1
    ∧ (mkSynAccount 1 (midSynState [] 1 1 []).nextId rowSyn41).is_analytical = false
    ∧ (mkSynAccount 1 (midSynState [] 1 1 []).nextId rowSyn41).is_active = true
    ∧ (mkSynAccount 1 (midSynState [] 1 1 []).nextId rowSyn41).company_id = 1
    ∧ (mkSynAccount 1 (midSynState [] 1 1 []).nextId rowSyn41).id
        = (midSynState [] 1 1 []).nextId
    ∧ (processSynthetic 1 (midSynState [] 1 1 []) rowSyn41).parent_map.lookup (pyStrip rowSyn41.kod)
        = some (midSynState [] 1 1 []).nextId :=
  C5_synthetic_insert_fields [] [rowSyn41] 1 1 [] rowSyn41 [] (by decide) (by decide)

/-- C6: An analytical input row whose parent code is absent or matches no
synthetic row of the file is inserted with `parent_id = null`, `level = 1`
and `is_analytical = true`. -/
theorem C6_unresolved_parent_null_level_one (db : DB) (rows : List Row) (cid startId : Nat)
    (A1 : List Row) (r : Row) (A2 : List Row)
    (hsplit : anaRows rows = A1 ++ r :: A2)
    (hpar : (pyStrip r.sintetichnaSmetka) = "" ∨
        ∀ s, s ∈ synRows rows → (pyStrip s.kod) ≠ (pyStrip r.sintetichnaSmetka))
    (hnew : lookupAccount (midAnaState db rows cid startId A1).db (pyStrip r.kod) cid = none) :
    (processAnalytical cid (midAnaState db rows cid startId A1) r).db
        = (midAnaState db rows cid startId A1).db
            ++ [mkAnaAccount cid (midAnaState db rows cid startId A1).nextId none r]
    ∧ (mkAnaAccount cid (midAnaState db rows cid startId A1).nextId none r).parent_id = none
    ∧ (mkAnaAccount cid (midAnaState db rows cid startId A1).nextId none r).level = 1
    ∧ (mkAnaAccount cid (midAnaState db rows cid startId A1).nextId none r).is_analytical
        = true := by
  have hres : resolveParent (midAnaState db rows cid startId A1).parent_map r = none := by
    unfold resolveParent
    by_cases hfield : r.sintetichnaSmetka = ""
    · simp [hfield]
    · rw [if_neg hfield]
      dsimp only
      by_cases htrim : (pyStrip r.sintetichnaSmetka) = ""
      · rw [if_pos htrim]
      · rw [if_neg htrim]
        rcases hpar with h | h
        · exact absurd h htrim
        · have hmapeq : (midAnaState db rows cid startId A1).parent_map
              = (synPass db rows cid startId).parent_map := parent_map_foldl_ana cid A1 _
          rw [hmapeq]
          cases hl : (synPass db rows cid startId).parent_map.lookup (pyStrip r.sintetichnaSmetka) with
          | none => rfl
          | some i =>
              exfalso
              unfold synPass at hl
              have hkeys := lookup_keys_foldl_syn cid
                (P := fun c => ∃ s, s ∈ synRows rows ∧ (pyStrip s.kod) = c)
                (synRows rows) (initState db cid startId)
                (fun rr hrr => ⟨rr, hrr, rfl⟩)
                (by intro c j hl0; simp [initState] at hl0)
                _ _ hl
              obtain ⟨srow, hsmem, hscode⟩ := hkeys
              exact h srow hsmem hscode
  refine ⟨?_, rfl, ?_, rfl⟩
  · unfold processAnalytical
    simp only [hnew]
    rw [hres]
  · rfl

/-- C6 witness: concrete insertion of an analytical row with no parent. -/
theorem C6_unresolved_parent_null_level_one_witness :
    (processAnalytical 1 (midAnaState [] [rowAna501] 1 1 []) rowAna501).db
        = (midAnaState [] [rowAna501] 1 1 []).db
            ++ [mkAnaAccount 1 (midAnaState [] [rowAna501] 1 1 []).nextId none rowAna501]
    ∧ (mkAnaAccount 1 (midAnaState [] [rowAna501] 1 1 []).nextId none rowAna501).parent_id = none
    ∧ (mkAnaAccount 1 (midAnaState [] [rowAna501] 1 1 []).nextId none rowAna501).level = 1
    ∧ (mkAnaAccount 1 (midAnaState [] [rowAna501] 1 1 []).nextId none rowAna501).is_analytical
        = true :=
  C6_unresolved_parent_null_level_one [] [rowAna501] 1 1 [] rowAna501 []
    (by decide) (Or.inl (by decide)) (by decide)

/-- C1: An analytical input row whose declared parent code equals the code
of a synthetic row of the same file, and whose own code is not yet present,
is inserted with `parent_id` equal to the identifier recorded for that
synthetic code — the identifier of an account in the table with that code
and company — and `level = 2` (given positive SERIAL ids). -/
theorem C1_analytical_parent_link (db : DB) (rows : List Row) (cid startId : Nat)
    (A1 : List Row) (r : Row) (A2 : List Row)
    (hsplit : anaRows rows = A1 ++ r :: A2)
    (hpc : (pyStrip r.sintetichnaSmetka) ≠ "")
    (hsyn : ∃ s, s ∈ synRows rows ∧ (pyStrip s.kod) = (pyStrip r.sintetichnaSmetka))
    (hids : ∀ a, a ∈ db → 1 ≤ a.id) (hstart : 1 ≤ startId)
    (hnew : lookupAccount (midAnaState db rows cid startId A1).db (pyStrip r.kod) cid = none) :
    ∃ i sa,
      (processAnalytical cid (midAnaState db rows cid startId A1) r).db
          = (midAnaState db rows cid startId A1).db
              ++ [mkAnaAccount cid (midAnaState db rows cid startId A1).nextId (some i) r]
      ∧ (mkAnaAccount cid (midAnaState db rows cid startId A1).nextId (some i) r).parent_id
          = some i
      ∧ (mkAnaAccount cid (midAnaState db rows cid startId A1).nextId (some i) r).level = 2
      ∧ (mkAnaAccount cid (midAnaState db rows cid startId A1).nextId (some i) r).code
          = (pyStrip r.kod)
      ∧ (mkAnaAccount cid (midAnaState db rows cid startId A1).nextId (some i) r).is_analytical
          = true
      ∧ sa ∈ (midAnaState db rows cid startId A1).db
      ∧ sa.code = (pyStrip r.sintetichnaSmetka) ∧ sa.company_id = cid ∧ sa.id = i := by
  obtain ⟨srow, hsmem, hscode⟩ := hsyn
  have hcomp := synFold_complete cid (synRows rows) (initState db cid startId) srow hsmem
  rw [hscode] at hcomp
  obtain ⟨i, hi⟩ := hcomp
  have hmapeq : (midAnaState db rows cid startId A1).parent_map
      = (synPass db rows cid startId).parent_map := parent_map_foldl_ana cid A1 _
  have hi' : (midAnaState db rows cid startId A1).parent_map.lookup
      (pyStrip r.sintetichnaSmetka) = some i := by
    rw [hmapeq]
    exact hi
  have hinv : MapInv cid (midAnaState db rows cid startId A1) := by
    unfold midAnaState synPass
    exact mapInv_foldl_ana cid A1 _
      (mapInv_foldl_syn cid _ _ (mapInv_init db cid startId hids hstart))
  obtain ⟨sa, hsa, hsacode, hsacid, hsaid⟩ := hinv.1 _ _ hi'
  have hipos : 1 ≤ i := by
    rw [← hsaid]
    exact hinv.2.1 sa hsa
  have hfield : ¬ r.sintetichnaSmetka = "" := by
    intro h0
    apply hpc
    rw [h0]
    rfl
  have hres : resolveParent (midAnaState db rows cid startId A1).parent_map r = some i := by
    unfold resolveParent
    rw [if_neg hfield]
    dsimp only
    rw [if_neg hpc]
    exact hi'
  refine ⟨i, sa, ?_, rfl, ?_, rfl, rfl, hsa, hsacode, hsacid, hsaid⟩
  · unfold processAnalytical
    simp only [hnew]
    rw [hres]
  · have hne0 : (i != 0) = true := by
      have : i ≠ 0 := by omega
      simpa using this
    simp [mkAnaAccount, pyTruthyOptNat, hne0]

/-- C1 witness: the spec's example — synthetic 41 followed by analytical
4111 with parent 41. -/
theorem C1_analytical_parent_link_witness :
    ∃ i sa,
      (processAnalytical 1 (midAnaState [] [rowSyn41, rowAna4111] 1 1 []) rowAna4111).db
          = (midAnaState [] [rowSyn41, rowAna4111] 1 1 []).db
              ++ [mkAnaAccount 1 (midAnaState [] [rowSyn41, rowAna4111] 1 1 []).nextId
                    (some i) rowAna4111]
      ∧ (mkAnaAccount 1 (midAnaState [] [rowSyn41, rowAna4111] 1 1 []).nextId
            (some i) rowAna4111).parent_id = some i
      ∧ (mkAnaAccount 1 (midAnaState [] [rowSyn41, rowAna4111] 1 1 []).nextId
            (some i) rowAna4111).level = 2
      ∧ (mkAnaAccount 1 (midAnaState [] [rowSyn41, rowAna4111] 1 1 []).nextId
            (some i) rowAna4111).code = (pyStrip rowAna4111.kod)
      ∧ (mkAnaAccount 1 (midAnaState [] [rowSyn41, rowAna4111] 1 1 []).nextId
            (some i) rowAna4111).is_analytical = true
      ∧ sa ∈ (midAnaState [] [rowSyn41, rowAna4111] 1 1 []).db
      ∧ sa.code = (pyStrip rowAna4111.sintetichnaSmetka) ∧ sa.company_id = 1 ∧ sa.id = i :=
  C1_analytical_parent_link [] [rowSyn41, rowAna4111] 1 1 [] rowAna4111 []
    (by decide) (by decide) ⟨rowSyn41, by decide, by decide⟩
    (by intro a ha; cases ha) (by decide) (by decide)

/-- Helper for C8: guarded insertion preserves distinctness of codes. -/
lemma nodup_foldl_ins :
    ∀ (cs B : List String), B.Nodup → (cs.foldl ins B).Nodup := by
  intro cs
  induction cs with
  | nil => intro B hB; exact hB
  | cons c cs ih =>
      intro B hB
      rw [List.foldl_cons]
      apply ih
      unfold ins
      by_cases h : c ∈ B
      · rw [if_pos h]
        exact hB
      · rw [if_neg h]
        simp [List.nodup_append, hB, h]

/-- Helper for C8: rows of other companies are untouched by the whole run. -/
lemma companyCodes_other (db : DB) (rows : List Row) (cid startId : Nat) {c : Nat}
    (hc : c ≠ cid) :
    companyCodes (import_accounts db rows cid startId).db c = companyCodes db c := by
  have hcc : ¬ cid = c := fun hh => hc hh.symm
  have hpurge : companyCodes (purge db cid) c = companyCodes db c := by
    induction db with
    | nil => rfl
    | cons a db ih =>
        simp [purge, companyCodes, companyRows] at ih ⊢
        by_cases h2 : a.company_id = c
        · by_cases h1 : a.company_id = cid
          · exact absurd (by rw [← h2, h1]) hc
          · by_cases h3 : a.code ∈ seedCodes <;> simp [h1, h2, h3, hc, hcc, List.filter_cons, ih]
        · by_cases h1 : a.company_id = cid <;> by_cases h3 : a.code ∈ seedCodes <;>
            simp [h1, h2, h3, hc, hcc, List.filter_cons, ih]
  have hstepS : ∀ (st : ImportState) (r : Row),
      companyCodes (processSynthetic cid st r).db c = companyCodes st.db c := by
    intro st r
    unfold processSynthetic
    cases h : lookupAccount st.db (pyStrip r.kod) cid <;> simp only [h]
    rw [companyCodes_append_one]
    have : ¬ (mkSynAccount cid st.nextId r).company_id = c := fun hh => hc (hh ▸ rfl)
    rw [if_neg this, List.append_nil]
  have hstepA : ∀ (st : ImportState) (r : Row),
      companyCodes (processAnalytical cid st r).db c = companyCodes st.db c := by
    intro st r
    unfold processAnalytical
    cases h : lookupAccount st.db (pyStrip r.kod) cid <;> simp only [h]
    rw [companyCodes_append_one]
    have : ¬ (mkAnaAccount cid st.nextId (resolveParent st.parent_map r) r).company_id = c :=
      fun hh => hc (hh ▸ rfl)
    rw [if_neg this, List.append_nil]
  unfold import_accounts synPass
  have hfoldA : ∀ (rs : List Row) (st : ImportState),
      companyCodes ((rs.foldl (processAnalytical cid) st).db) c = companyCodes st.db c := by
    intro rs
    induction rs with
    | nil => intro st; rfl
    | cons r rs ih => intro st; rw [List.foldl_cons, ih, hstepA]
  have hfoldS : ∀ (rs : List Row) (st : ImportState),
      companyCodes ((rs.foldl (processSynthetic cid) st).db) c = companyCodes st.db c := by
    intro rs
    induction rs with
    | nil => intro st; rfl
    | cons r rs ih => intro st; rw [List.foldl_cons, ih, hstepS]
  rw [hfoldA, hfoldS]
  exact hpurge

/-- C8: code uniqueness within a company is an invariant of the run — if the
codes of a company are distinct before the import, they are distinct after
it, for the imported company (lookup-before-insert) as well as every other
company (untouched). -/
theorem C8_codes_unique_invariant (db : DB) (rows : List Row) (cid startId : Nat) (c : Nat)
    (h : (companyCodes db c).Nodup) :
    (companyCodes (import_accounts db rows cid startId).db c).Nodup := by
  by_cases hc : c = cid
  · subst hc
    rw [companyCodes_import]
    apply nodup_foldl_ins
    rw [companyCodes_purge]
    exact h.filter _
  · rw [companyCodes_other db rows cid startId hc]
    exact h

/-- C8 witness: a concrete run preserving uniqueness. -/
theorem C8_codes_unique_invariant_witness :
    (companyCodes (import_accounts [acct101] [rowSyn41, rowAna4111] 1 10).db 1).Nodup :=
  C8_codes_unique_invariant [acct101] [rowSyn41, rowAna4111] 1 10 1 (by decide)

/-- C2 counterexample: a database error at the final count query — after the
commit — exits with status 1, yet the database is not left unchanged: the
whole import is committed (fuel 4 covers DELETE, SELECT, INSERT, COMMIT, and
runs out at the COUNT query). -/
theorem C2_counterexample_error_after_commit :
    (import_run [] [rowSyn41] 1 1 4).2 = 1 ∧ (import_run [] [rowSyn41] 1 1 4).1 ≠ [] := by
  constructor
  · rfl
  · intro h
    cases h

/-- C2 (amended): a database error makes the run exit with status 1 and the
database is then either unchanged (error before or at the commit: full
rollback) or holds exactly the completed import (error after the commit, in
the final count query); a partial set of rows is never committed. -/
theorem C2_db_error_rollback_or_full_commit (db : DB) (rows : List Row)
    (cid startId fuel : Nat)
    (h : (import_run db rows cid startId fuel).2 = 1) :
    (import_run db rows cid startId fuel).1 = db ∨
    (import_run db rows cid startId fuel).1 = (import_accounts db rows cid startId).db := by
  set s0 : RunState :=
    { committed := db, pending := db, parent_map := [], nextId := startId
      fuel := fuel, failed := false } with hs0
  set s1 := txDelete cid s0 with hs1
  set s2 := (synRows rows).foldl (txSynStep cid) s1 with hs2
  set s3 := (anaRows rows).foldl (txAnaStep cid) s2 with hs3
  set s4 := txCommit s3 with hs4
  set s5 := txCount s4 with hs5
  have hpair : import_run db rows cid startId fuel
      = (s5.committed, if s5.failed then 1 else 0) := rfl
  rw [hpair] at h ⊢
  have hchain : s3.committed = db := by
    rw [hs3, foldl_txAna_committed, hs2, foldl_txSyn_committed, hs1, txDelete_committed]
  by_cases h3 : s3.failed = true
  · left
    have hc4 : s4.committed = s3.committed := by
      rw [hs4]
      simp [txCommit, h3]
    show s5.committed = db
    rw [hs5, txCount_committed, hc4, hchain]
  · simp only [Bool.not_eq_true] at h3
    by_cases h3f : s3.fuel = 0
    · left
      have hc4 : s4.committed = s3.committed := by
        rw [hs4]
        simp [txCommit, h3, h3f]
      show s5.committed = db
      rw [hs5, txCount_committed, hc4, hchain]
    · right
      have hc4 : s4.committed = s3.pending := by
        rw [hs4]
        simp [txCommit, h3, h3f]
      have h2 : s2.failed = false := by
        by_cases hf : s2.failed = true
        · exfalso
          rw [hs3, foldl_txAna_absorb cid (anaRows rows) s2 hf] at h3
          rw [hf] at h3
          cases h3
        · simpa using hf
      have h1 : s1.failed = false := by
        by_cases hf : s1.failed = true
        · exfalso
          rw [hs2, foldl_txSyn_absorb cid (synRows rows) s1 hf] at h2
          rw [hf] at h2
          cases h2
        · simpa using hf
      have hrel1 : TxRel s1 (initState db cid startId) := by
        by_cases h0f : fuel = 0
        · exfalso
          rw [hs1] at h1
          simp [txDelete, hs0, h0f] at h1
        · rw [hs1]
          unfold txDelete
          simp only [hs0, h0f]
          exact ⟨rfl, rfl, rfl⟩
      have hrel2 : TxRel s2 (synPass db rows cid startId) := by
        rw [hs2]
        unfold synPass
        refine txFold_rel_syn cid (synRows rows) s1 (initState db cid startId) hrel1 ?_
        rw [← hs2]
        exact h2
      have hrel3 : TxRel s3 (import_accounts db rows cid startId) := by
        rw [hs3]
        unfold import_accounts
        refine txFold_rel_ana cid (anaRows rows) s2 (synPass db rows cid startId) hrel2 ?_
        rw [← hs3]
        exact h3
      show s5.committed = (import_accounts db rows cid startId).db
      rw [hs5, txCount_committed, hc4]
      exact hrel3.1

/-- C2 amended witness: zero fuel — the very first statement fails, the run
exits 1 and the database is unchanged. -/
theorem C2_db_error_rollback_or_full_commit_witness :
    (import_run ([] : DB) [] 1 1 0).1 = ([] : DB) ∨
    (import_run ([] : DB) [] 1 1 0).1 = (import_accounts ([] : DB) [] 1 1).db :=
  C2_db_error_rollback_or_full_commit [] [] 1 1 0 rfl
